import Mathlib

/-!
# CoinButler — shallow embedding and verification

A shallow embedding of the CoinButler trading bot (Python sources:
`risk_manager.py`, `config_manager.py`, `trade_utils.py`,
`ai_performance_tracker.py`, `trade_bot.py`) together with proofs about the
claims of its natural-language specification.

Modelling conventions:
* Python floats are modelled as exact rationals (`ℚ`).
* Python dicts are modelled as insertion-ordered association lists
  (`List (String × α)`); `dictInsert` reproduces CPython semantics (an
  existing key is updated in place, a new key is appended).
* File writes (CSV append, JSON dump) are modelled as fields of an explicit
  state record; the possibility that a write to disk fails is modelled by an
  explicit `persistOk : Bool` oracle where a claim depends on it.
* A Python exception is modelled with `Except String`; a `try/except` block
  is modelled by pattern matching on the `Except` result.
* Wall-clock values (timestamps, dates) are passed as explicit parameters:
  dates as ISO strings, instants as rational day counts.
-/

namespace CoinButler

/-- A Python scalar value, where the embedding has to stay dynamically typed
(e.g. values that are sometimes a float and sometimes a string). `dt` models a
`datetime` object as a rational day count. -/
inductive PyVal where
  | num (q : ℚ)
  | str (s : String)
  | dt (t : ℚ)
deriving Repr, DecidableEq

/-- Python truthiness of an `Optional` value: `None` is falsy; we only ever
test optionals whose payload is truthy when present. -/
def optTruthy (o : Option Bool) : Bool :=
  match o with
  | none => false
  | some b => b

/-- CPython dict assignment `m[k] = v`: updates an existing key in place
(keys are unique in every reachable dict, so replacing the first occurrence is
exact), appends a fresh key at the end. -/
def dictInsert {α : Type} : List (String × α) → String → α → List (String × α)
  | [], k, v => [(k, v)]
  | kv :: rest, k, v =>
    if kv.1 = k then (k, v) :: rest else kv :: dictInsert rest k v

/-! ## risk_manager.py — `Position` and `RiskManager` -/

/-- `Position` (risk_manager.py:41-86). `entryTime` is a rational day count
standing for the `datetime` object. -/
structure Position where
  market : String
  entryPrice : ℚ
  quantity : ℚ
  entryTime : ℚ
  investmentAmount : ℚ
  exitPrice : Option ℚ := none
  exitTime : Option ℚ := none
  status : String := "open"
  profitLoss : Option ℚ := none
deriving Repr, DecidableEq

/-- `Position.calculate_current_pnl` (risk_manager.py:56-59):
`quantity * current_price - investment_amount`. -/
def Position.calculateCurrentPnl (p : Position) (currentPrice : ℚ) : ℚ :=
  p.quantity * currentPrice - p.investmentAmount

/-- `Position.calculate_pnl_rate` (risk_manager.py:61-64):
`(pnl / investment_amount) * 100`. -/
def Position.calculatePnlRate (p : Position) (currentPrice : ℚ) : ℚ :=
  (p.calculateCurrentPnl currentPrice / p.investmentAmount) * 100

/-- `Position.close_position` (risk_manager.py:66-72): fills the exit fields,
sets status `"closed"` and records `profit_loss`; returns the updated position
and the realized profit/loss. -/
def Position.closePos (p : Position) (exitPrice exitTime : ℚ) : Position × ℚ :=
  let pl := p.calculateCurrentPnl exitPrice
  ({ p with exitPrice := some exitPrice, exitTime := some exitTime,
            status := "closed", profitLoss := some pl }, pl)

/-- One row of `trade_history.csv` (risk_manager.py:499-517). `date` stands
for the calendar date of the row's `datetime.now().isoformat()` timestamp. -/
structure TradeRow where
  date : String
  market : String
  action : String
  price : ℚ
  quantity : ℚ
  amount : ℚ
  profitLoss : ℚ
  cumulativePnl : ℚ
  status : String
deriving Repr, DecidableEq

/-- The `RiskManager` state (risk_manager.py:88-103): the in-memory position
dict plus the on-disk artifacts it mirrors (`trade_history.csv`,
`daily_pnl.json`). -/
structure RMState where
  dailyLossLimit : ℚ
  maxPositions : Nat
  positions : List (String × Position)
  tradeHistory : List TradeRow
  dailyPnl : List (String × ℚ)
deriving Repr, DecidableEq

/-- `RiskManager.get_daily_pnl` (risk_manager.py:444-458): `data.get(today,
0.0)` from `daily_pnl.json`. -/
def getDailyPnl (st : RMState) (today : String) : ℚ :=
  (st.dailyPnl.lookup today).getD 0

/-- `RiskManager._update_daily_pnl` (risk_manager.py:460-475):
`data[today] = data.get(today, 0.0) + profit_loss`. -/
def updateDailyPnl (st : RMState) (profitLoss : ℚ) (today : String) : RMState :=
  { st with dailyPnl :=
      dictInsert st.dailyPnl today ((st.dailyPnl.lookup today).getD 0 + profitLoss) }

/-- `RiskManager._record_trade` (risk_manager.py:499-517): appends one CSV row
with `cumulative_pnl = get_daily_pnl() + profit_loss`. -/
def recordTrade (st : RMState) (market action : String)
    (price quantity amount profitLoss : ℚ) (status : String) (today : String) :
    RMState :=
  { st with tradeHistory := st.tradeHistory ++
      [{ date := today, market := market, action := action, price := price,
         quantity := quantity, amount := amount, profitLoss := profitLoss,
         cumulativePnl := getDailyPnl st today + profitLoss, status := status }] }

/-- Count of positions with status `"open"`, as computed in
`RiskManager.can_open_position` (risk_manager.py:336). -/
def openCount (st : RMState) : Nat :=
  (st.positions.filter (fun kv => kv.2.status = "open")).length

/-- `RiskManager.can_open_position` (risk_manager.py:334-337). -/
def canOpenPosition (st : RMState) : Bool :=
  openCount st < st.maxPositions

/-- `RiskManager.add_position` (risk_manager.py:339-374). Returns the Python
return value and the updated state. `now` is the entry instant, `today` the
calendar date used by `_record_trade`. -/
def addPosition (st : RMState) (market : String)
    (entryPrice quantity investmentAmount : ℚ) (now : ℚ) (today : String) :
    Bool × RMState :=
  if ¬ canOpenPosition st then (false, st)
  else if (st.positions.lookup market).any (fun p => p.status = "open") then
    (false, st)
  else
    let pos : Position :=
      { market := market, entryPrice := entryPrice, quantity := quantity,
        entryTime := now, investmentAmount := investmentAmount }
    let st := { st with positions := dictInsert st.positions market pos }
    let st := recordTrade st market "BUY" entryPrice quantity investmentAmount
        0 "포지션 진입" today
    (true, st)

/-- `RiskManager.close_position` (risk_manager.py:376-403). Returns the
realized P&L (`None` when there is no open position for the market) and the
updated state. -/
def closePosition (st : RMState) (market : String) (exitPrice : ℚ) (now : ℚ)
    (today : String) : Option ℚ × RMState :=
  match st.positions.lookup market with
  | none => (none, st)
  | some position =>
    if position.status ≠ "open" then (none, st)
    else
      let (closed, profitLoss) := position.closePos exitPrice now
      let st := { st with positions := dictInsert st.positions market closed }
      let st := recordTrade st market "SELL" exitPrice position.quantity
          (position.quantity * exitPrice) profitLoss "포지션 종료" today
      let st := updateDailyPnl st profitLoss today
      (some profitLoss, st)

/-- `RiskManager.get_position_pnl` (risk_manager.py:405-414). -/
def getPositionPnl (st : RMState) (market : String) (currentPrice : ℚ) :
    Option (ℚ × ℚ) :=
  match st.positions.lookup market with
  | none => none
  | some position =>
    if position.status ≠ "open" then none
    else some (position.calculateCurrentPnl currentPrice,
               position.calculatePnlRate currentPrice)

/-- The reason string returned by `should_sell`, kept as a tag plus the P&L
rate that the Python code formats into the string (`"익절 (수익률: …%)"` /
`"손절 (손실률: …%)"` / `""`). -/
inductive SellReason where
  | takeProfit (pnlRate : ℚ)
  | stopLoss (pnlRate : ℚ)
  | empty
deriving Repr, DecidableEq

def SellReason.isTakeProfit : SellReason → Bool
  | .takeProfit _ => true
  | _ => false

def SellReason.isStopLoss : SellReason → Bool
  | .stopLoss _ => true
  | _ => false

/-- `RiskManager.should_sell` (risk_manager.py:416-442). -/
def shouldSell (st : RMState) (market : String) (currentPrice : ℚ)
    (profitRate lossRate : ℚ) : Bool × SellReason :=
  match getPositionPnl st market currentPrice with
  | none => (false, .empty)
  | some (_pnl, pnlRate) =>
    let profitThreshold := profitRate * 100
    let lossThreshold := lossRate * 100
    if pnlRate ≥ profitThreshold then (true, .takeProfit pnlRate)
    else if pnlRate ≤ lossThreshold then (true, .stopLoss pnlRate)
    else (false, .empty)

/-- `RiskManager.check_daily_loss_limit` (risk_manager.py:477-497). The loop
over open positions has a `pass` body (the source comment acknowledges
unrealized P&L is not included), so `unrealized_pnl` stays `0.0`. -/
def checkDailyLossLimit (st : RMState) (dailyLossLimit : ℚ) (today : String) :
    Bool :=
  let dailyPnl := getDailyPnl st today
  let unrealizedPnl : ℚ := st.positions.foldl (fun acc _kv => acc) 0
  let totalPnl := dailyPnl + unrealizedPnl
  totalPnl ≤ dailyLossLimit

/-! ## Operation sequences over the `RiskManager` (for the accounting claims) -/

/-- One `RiskManager` call in an `add_position`/`close_position` sequence. -/
inductive RMOp where
  | add (market : String) (entryPrice quantity investmentAmount : ℚ)
  | close (market : String) (exitPrice : ℚ)
deriving Repr, DecidableEq

/-- Apply one `RMOp` to the state (all calls happen at instant `now` on
calendar date `today`). -/
def applyOp (now : ℚ) (today : String) (st : RMState) : RMOp → RMState
  | .add m e q i => (addPosition st m e q i now today).2
  | .close m x => (closePosition st m x now today).2

/-- Sum of the `profit_loss` fields over the SELL rows of one date in
`trade_history.csv`. -/
def sellPnlSum (d : String) (rows : List TradeRow) : ℚ :=
  ((rows.filter (fun r => r.action == "SELL" && r.date == d)).map
    (fun r => r.profitLoss)).sum

/-! ## Concrete fixtures used by the witnesses -/

/-- An open position: 0.3 BTC bought at 100,000 for 30,000. -/
def pos4w : Position :=
  { market := "KRW-BTC", entryPrice := 100000, quantity := 3/10,
    entryTime := 0, investmentAmount := 30000 }

def st4w : RMState :=
  { dailyLossLimit := -50000, maxPositions := 3,
    positions := [("KRW-BTC", pos4w)], tradeHistory := [], dailyPnl := [] }

/-- A `RiskManager` already holding 3 open positions with `max_positions = 3`. -/
def st5w : RMState :=
  { dailyLossLimit := -50000, maxPositions := 3,
    positions :=
      [("KRW-BTC", { market := "KRW-BTC", entryPrice := 100000, quantity := 1/10,
                     entryTime := 0, investmentAmount := 10000 }),
       ("KRW-ETH", { market := "KRW-ETH", entryPrice := 5000, quantity := 2,
                     entryTime := 0, investmentAmount := 10000 }),
       ("KRW-SOL", { market := "KRW-SOL", entryPrice := 250, quantity := 40,
                     entryTime := 0, investmentAmount := 10000 })],
    tradeHistory := [], dailyPnl := [] }

/-- A fresh `RiskManager` with empty history and daily-P&L map. -/
def st6w : RMState :=
  { dailyLossLimit := -50000, maxPositions := 3, positions := [],
    tradeHistory := [], dailyPnl := [] }

/-- The §8.12 end-to-end scenario: buy 30 units of X at 1,000 for 30,000,
then close at 1,031 (realized P&L 930). -/
def ops6w : List RMOp :=
  [.add "KRW-X" 1000 30 30000, .close "KRW-X" 1031]

/-! ## config_manager.py — `ConfigManager` -/

/-- `ConfigManager.save_config` (config_manager.py:68-86): writes the
`last_updated` timestamp into the dict it was handed — in `set` and
`update_multiple` that dict is `self.config` itself, so the mutation survives
a failed dump — then attempts the JSON dump. On dump failure the exception is
caught and `False` is returned. `persistOk` is the oracle for whether the
file write succeeds, `now` the fresh timestamp value. -/
def saveConfig (config : List (String × PyVal)) (now : PyVal)
    (persistOk : Bool) : Bool × List (String × PyVal) :=
  let config := dictInsert config "last_updated" now
  if persistOk then (true, config) else (false, config)

/-- The per-key rollback step of `update_multiple` (config_manager.py:130-132):
`if old_value is not None: self.config[key] = old_value` — a key whose backed-up
prior value is `None` is left at its updated value. -/
def rollbackStep (c : List (String × PyVal)) (kv : String × Option PyVal) :
    List (String × PyVal) :=
  match kv.2 with
  | some v => dictInsert c kv.1 v
  | none => c

/-- `ConfigManager.update_multiple` (config_manager.py:111-137): backs up
`self.config.get(key)` for every key of `updates`, applies all updates, then
persists through `save_config`; on persist failure runs the rollback loop and
returns `False`. -/
def updateMultiple (config : List (String × PyVal))
    (updates : List (String × PyVal)) (now : PyVal) (persistOk : Bool) :
    Bool × List (String × PyVal) :=
  let oldValues : List (String × Option PyVal) :=
    updates.map (fun kv => (kv.1, config.lookup kv.1))
  let config := updates.foldl (fun c kv => dictInsert c kv.1 kv.2) config
  let res := saveConfig config now persistOk
  if res.1 then (true, res.2)
  else (false, oldValues.foldl rollbackStep res.2)

/-! ## ai_performance_tracker.py — `AIPerformanceTracker` -/

/-- One row of the `ai_recommendations` table, restricted to the columns the
outcome lifecycle touches (ai_performance_tracker.py:79-120). -/
structure AIRecRow where
  id : Nat
  timestamp : String
  market : String
  executed : Bool
  executionPrice : Option ℚ
  exitPrice : Option ℚ
  exitTimestamp : Option String
  actualReturn : Option ℚ
  holdingDays : Option Int
  success : Option Bool
deriving Repr, DecidableEq

/-- `AIPerformanceTracker.update_recommendation_result`
(ai_performance_tracker.py:157-197). `daysBetween a b` is the oracle for
`(datetime.fromisoformat(b) - datetime.fromisoformat(a)).days`; `nowTs`
stands for `datetime.now()` (used when `exit_timestamp` is absent). With
`exit_price` present and `execution_price = None`, the expression
`(exit_price - execution_price) / execution_price` raises `TypeError` before
any UPDATE statement runs; the surrounding `except Exception` catches it and
the function returns `False` with the table untouched. A zero
`execution_price` would likewise raise (`ZeroDivisionError`) and return
`False`. -/
def updateRecommendationResult (db : List AIRecRow) (recId : Nat)
    (executionPrice : Option ℚ) (exitPrice : Option ℚ)
    (exitTimestamp : Option String)
    (daysBetween : String → String → Int) (nowTs : String) :
    Bool × List AIRecRow :=
  match exitPrice with
  | none =>
    (true, db.map (fun r => if r.id = recId then
        { r with executed := true, executionPrice := executionPrice } else r))
  | some xp =>
    match executionPrice with
    | none => (false, db)
    | some ep =>
      if ep = 0 then (false, db)
      else
        let actualReturn := (xp - ep) / ep * 100
        let success := decide (actualReturn > 0)
        let holdingDays : Int :=
          match db.find? (fun r => r.id == recId) with
          | some row => daysBetween row.timestamp (exitTimestamp.getD nowTs)
          | none => 0
        (true, db.map (fun r => if r.id = recId then
            { r with executed := true, executionPrice := some ep,
                     exitPrice := some xp, exitTimestamp := exitTimestamp,
                     actualReturn := some actualReturn,
                     holdingDays := some holdingDays,
                     success := some success } else r))

/-- Stable insertion into a list sorted descending by `timestamp` (SQLite
`ORDER BY timestamp DESC` over TEXT is lexicographic). -/
def insertByTsDesc (r : AIRecRow) : List AIRecRow → List AIRecRow
  | [] => [r]
  | x :: xs =>
    if x.timestamp < r.timestamp then r :: x :: xs
    else x :: insertByTsDesc r xs

/-- Sort by timestamp, most recent first. -/
def sortByTsDesc (db : List AIRecRow) : List AIRecRow :=
  db.foldr insertByTsDesc []

/-- `AIPerformanceTracker.get_recent_recommendations`
(ai_performance_tracker.py:320-348): `ORDER BY timestamp DESC LIMIT ?`
(returned fields include `market`, `executed`, `actual_return`). -/
def getRecentRecommendations (db : List AIRecRow) (limit : Nat) :
    List AIRecRow :=
  (sortByTsDesc db).take limit

/-- The SQL of `CoinButler._update_ai_recommendation_exit`
(trade_bot.py:2662-2666): `SELECT id FROM ai_recommendations WHERE market = ?
AND executed = 1 AND exit_price IS NULL ORDER BY timestamp DESC LIMIT 1`. -/
def selectExitRowId (db : List AIRecRow) (market : String) : Option Nat :=
  match sortByTsDesc (db.filter (fun r =>
      r.market == market && r.executed && r.exitPrice == none)) with
  | [] => none
  | r :: _ => some r.id

/-- The loop body of `CoinButler._update_ai_recommendation_exit`
(trade_bot.py:2654-2679): iterate the recent recommendations; at the first
one matching (same market, executed, `actual_return` still absent), look up
the row id and call `update_recommendation_result(recommendation_id, None,
exit_price, now)` — note the literal `None` passed as `execution_price` —
then break. -/
def updateAiExitGo (db : List AIRecRow) (market : String) (exitPrice : ℚ)
    (nowTs : String) (daysBetween : String → String → Int) :
    List AIRecRow → List AIRecRow
  | [] => db
  | rec :: rest =>
    if rec.market == market && rec.executed && rec.actualReturn == none then
      match selectExitRowId db market with
      | some recId =>
        (updateRecommendationResult db recId none (some exitPrice)
          (some nowTs) daysBetween nowTs).2
      | none => updateAiExitGo db market exitPrice nowTs daysBetween rest
    else updateAiExitGo db market exitPrice nowTs daysBetween rest

/-- `CoinButler._update_ai_recommendation_exit` (trade_bot.py:2647-2682):
runs the loop above over `get_recent_recommendations(50)`. -/
def updateAiRecommendationExit (db : List AIRecRow) (market : String)
    (exitPrice : ℚ) (nowTs : String)
    (daysBetween : String → String → Int) : List AIRecRow :=
  updateAiExitGo db market exitPrice nowTs daysBetween
    (getRecentRecommendations db 50)

/-! ## trade_utils.py — `api_retry` and the retry-wrapped exchange calls -/

/-- The outcome of one underlying call attempt inside the `api_retry`
wrapper. -/
inductive AttemptOutcome (α : Type) where
  | ok (a : α)
  | http429
  | httpOther (code : Nat)
  | exc
deriving Repr, DecidableEq

/-- One `time.sleep` performed between attempts: the attempt index, the
deterministic delay (`delay_base * 2 ** attempt`), and whether the random
jitter `random.uniform(0, 1)` is added on top (only for HTTP 429,
trade_utils.py:59). -/
structure RetrySleep where
  attempt : Nat
  delay : ℚ
  jitter : Bool
deriving Repr, DecidableEq

/-- The wrapper's result: the wrapped return value (`value none` models the
`return None` after the loop, reachable only for `max_retries = 0`), or the
exception re-raised to the caller. -/
inductive RetryResult (α : Type) where
  | value (a : Option α)
  | raised (e : AttemptOutcome α)
deriving Repr, DecidableEq

/-- A finished run of the wrapper: its result, the sleeps it performed, and
how many attempts it consumed. -/
structure RetryRun (α : Type) where
  result : RetryResult α
  sleeps : List RetrySleep
  attemptsMade : Nat
deriving Repr, DecidableEq

/-- The `for attempt in range(max_retries)` loop of `api_retry`
(trade_utils.py:46-73), with `outcomes n` the oracle for what the wrapped
function does on attempt `n` and `fuel` the remaining iterations
(`maxRetries - attempt`). A 429 `HTTPError` retries (while
`attempt < max_retries - 1`) after sleeping `delay_base * 2 ** attempt` plus
jitter; a non-429 `HTTPError` falls through the `status_code == 429` test to
`raise e` immediately; any other exception retries after the same delay
without jitter; on the last attempt every failure is re-raised. -/
def apiRetryGo {α : Type} (delayBase : ℚ) (maxRetries : Nat)
    (outcomes : Nat → AttemptOutcome α) :
    Nat → Nat → List RetrySleep → RetryRun α
  | 0, attempt, sleeps => ⟨.value none, sleeps, attempt⟩
  | fuel + 1, attempt, sleeps =>
    match outcomes attempt with
    | .ok a => ⟨.value (some a), sleeps, attempt + 1⟩
    | .http429 =>
      if attempt < maxRetries - 1 then
        apiRetryGo delayBase maxRetries outcomes fuel (attempt + 1)
          (sleeps ++ [⟨attempt, delayBase * 2 ^ attempt, true⟩])
      else ⟨.raised .http429, sleeps, attempt + 1⟩
    | .httpOther code => ⟨.raised (.httpOther code), sleeps, attempt + 1⟩
    | .exc =>
      if attempt < maxRetries - 1 then
        apiRetryGo delayBase maxRetries outcomes fuel (attempt + 1)
          (sleeps ++ [⟨attempt, delayBase * 2 ^ attempt, false⟩])
      else ⟨.raised .exc, sleeps, attempt + 1⟩

/-- `api_retry(max_retries, delay_base)` applied to a wrapped function whose
attempt behaviour is `outcomes`. -/
def apiRetry {α : Type} (maxRetries : Nat) (delayBase : ℚ)
    (outcomes : Nat → AttemptOutcome α) : RetryRun α :=
  apiRetryGo delayBase maxRetries outcomes maxRetries 0 []

/-- Every retry-wrapped exchange call in the repository —
`UpbitAPI.get_current_price`, `UpbitAPI.get_candles`
(trade_utils.py:128-143), `MarketAnalyzer.get_price_change`,
`MarketAnalyzer.get_tradeable_markets`,
`MarketAnalyzer.get_daily_trade_volume_ranking` (trade_utils.py:261-287) —
is decorated `@api_retry(max_retries=3, delay_base=2.0)`. -/
def exchangeCallRetry {α : Type} (outcomes : Nat → AttemptOutcome α) :
    RetryRun α :=
  apiRetry 3 2 outcomes

/-- A wrapped call that fails with a generic exception on attempt 0 and
succeeds on attempt 1 (refutes the claimed `1.0 × 2^attempt` wait). -/
def outcomes10c : Nat → AttemptOutcome Unit :=
  fun n => if n = 0 then .exc else .ok ()

/-! ## trade_utils.py — volume ranking and its fallback -/

/-- One entry of the list built by `get_daily_trade_volume_ranking`
(trade_utils.py:307-319). -/
structure TickerInfo where
  market : String
  tradeVolume : ℚ
  tradePrice : ℚ
  currentPrice : ℚ
  changeRate : ℚ
  volumePower : ℚ
deriving Repr, DecidableEq

/-- The raw ticker fields consumed from the exchange `/v1/ticker` response. -/
structure RawTicker where
  market : String
  accTradeVolume24h : ℚ
  accTradePrice24h : ℚ
  tradePrice : ℚ
  signedChangeRate : ℚ
  prevClosingPrice : ℚ
deriving Repr, DecidableEq

/-- The per-ticker record construction of trade_utils.py:308-315, including
`volume_power = acc_trade_volume_24h / max(prev_closing_price, 1)`. -/
def toTickerInfo (t : RawTicker) : TickerInfo :=
  { market := t.market, tradeVolume := t.accTradeVolume24h,
    tradePrice := t.accTradePrice24h, currentPrice := t.tradePrice,
    changeRate := t.signedChangeRate,
    volumePower := t.accTradeVolume24h / max t.prevClosingPrice 1 }

/-- Stable insertion into a list sorted descending by `tradePrice`
(`krw_tickers.sort(key=..., reverse=True)` is a stable descending sort). -/
def insertByTradePriceDesc (r : TickerInfo) :
    List TickerInfo → List TickerInfo
  | [] => [r]
  | x :: xs =>
    if x.tradePrice < r.tradePrice then r :: x :: xs
    else x :: insertByTradePriceDesc r xs

def sortByTradePriceDesc (l : List TickerInfo) : List TickerInfo :=
  l.foldr insertByTradePriceDesc []

/-- The fixed fallback market list of `_get_fallback_top_markets`
(trade_utils.py:340-343). -/
def fallbackMarkets : List String :=
  ["KRW-BTC", "KRW-ETH", "KRW-XRP", "KRW-ADA", "KRW-DOGE",
   "KRW-AVAX", "KRW-DOT", "KRW-MATIC", "KRW-SOL", "KRW-SHIB"]

/-- `self.get_current_price(market)` at trade_utils.py:349. The
`MarketAnalyzer` class defines no method or attribute named
`get_current_price` (the method of that name lives on `UpbitAPI` and is
reachable only as `self.api.get_current_price`), so this attribute lookup
raises `AttributeError` before any network call happens. -/
def analyzerSelfGetCurrentPrice (_market : String) : Except String ℚ :=
  .error "AttributeError: MarketAnalyzer has no attribute get_current_price"

/-- `MarketAnalyzer._get_fallback_top_markets` (trade_utils.py:338-363): for
each fallback market (up to `limit`), try to look up a current price and
append an entry with the other fields zeroed; `except Exception: continue`
swallows the per-market failure. -/
def getFallbackTopMarkets (limit : Nat) : List TickerInfo :=
  (fallbackMarkets.take limit).foldl
    (fun result market =>
      match analyzerSelfGetCurrentPrice market with
      | .error _ => result
      | .ok currentPrice =>
        if currentPrice ≠ 0 then
          result ++ [{ market := market, tradeVolume := 0, tradePrice := 0,
                       currentPrice := currentPrice, changeRate := 0,
                       volumePower := 0 }]
        else result)
    []

/-- `MarketAnalyzer.get_daily_trade_volume_ranking`
(trade_utils.py:286-336). `tickers = none` models any exception while
fetching the market list or the tickers (the whole body sits in one `try`);
on failure the function returns `_get_fallback_top_markets(limit)`. On
success it keeps the KRW markets with positive 24h notional volume, sorts
them descending by that notional volume and returns the first `limit`. -/
def getDailyTradeVolumeRanking (tickers : Option (List RawTicker))
    (limit : Nat) : List TickerInfo :=
  match tickers with
  | none => getFallbackTopMarkets limit
  | some ts =>
    let krwTickers := (ts.filter (fun t =>
        t.market.startsWith "KRW-" && decide (0 < t.accTradePrice24h))).map
      toTickerInfo
    (sortByTradePriceDesc krwTickers).take limit

/-! ## trade_bot.py — position management (loss-cut candidate collection) -/

/-- A loss-cut rebalancing candidate as assembled at trade_bot.py:2047-2056. -/
structure LosingCandidate where
  market : String
  entryPrice : PyVal
  currentPrice : ℚ
  pnlRate : ℚ
  pnl : ℚ
  entryTime : PyVal
  daysHeld : Int
deriving Repr, DecidableEq

/-- Python attribute lookup `position.get` at trade_bot.py:2038.
`RiskManager.get_open_positions` returns `Position` objects
(risk_manager.py:522-525), and the `Position` class defines no attribute
named `get`, so the lookup raises `AttributeError`. -/
def positionDictGet (_p : Position) (_key : String) : Except String PyVal :=
  .error "AttributeError: Position object has no attribute get"

/-- Subscript access `position['entry_price']` at trade_bot.py:2049:
`Position` defines no `__getitem__`, so this raises `TypeError` (already
unreachable: line 2038 raised first). -/
def positionSubscript (_p : Position) (_key : String) : Except String PyVal :=
  .error "TypeError: Position object is not subscriptable"

/-- `datetime.fromisoformat(entry_time)` / pass-through at
trade_bot.py:2041-2044 (unreachable: the `position.get` above always raises
first). ISO-string parsing is not modelled; datetime values pass through as
rational day counts. -/
def entryTimeToDt : PyVal → Except String ℚ
  | .num q => .ok q
  | .dt t => .ok t
  | .str _ => .error "unmodelled fromisoformat"

/-- The collection block at trade_bot.py:2036-2058, entered for an open
position whose P&L rate is below −5: read `entry_time` with a dict-style
`.get` (raises — see `positionDictGet`), then, inside an inner
`try/except: pass`, convert it, compute `days_held` and append the candidate
when `days_held >= 1`. Returns the candidate to append, `none` to skip, or
the exception left for the outer per-market handler. -/
def collectLosingCandidate (pos : Position) (market : String)
    (currentPrice pnl pnlRate now : ℚ) :
    Except String (Option LosingCandidate) :=
  if pnlRate < -5 then
    match positionDictGet pos "entry_time" with
    | .error e => .error e
    | .ok entryTime =>
      let inner : Except String (Option LosingCandidate) :=
        match entryTimeToDt entryTime with
        | .error e => .error e
        | .ok entryDt =>
          let daysHeld : Int := ⌊now - entryDt⌋
          if daysHeld ≥ 1 then
            match positionSubscript pos "entry_price" with
            | .error e => .error e
            | .ok entryPrice =>
              .ok (some { market := market, entryPrice := entryPrice,
                          currentPrice := currentPrice, pnlRate := pnlRate,
                          pnl := pnl, entryTime := entryTime,
                          daysHeld := daysHeld })
          else .ok none
      match inner with
      | .ok c => .ok c
      | .error _ => .ok none
  else .ok none

/-- The per-market body of `CoinButler._manage_positions`
(trade_bot.py:2005-2058), restricted to its effect on the `losing_positions`
list: current-price lookup (`continue` when unavailable), the `should_sell`
check (a triggered sell produces no candidate), then the collection block. -/
def managePositionBody (st : RMState) (market : String) (pos : Position)
    (prices : String → Option ℚ) (profitRate lossRate now : ℚ) :
    Except String (Option LosingCandidate) :=
  match prices market with
  | none => .ok none
  | some currentPrice =>
    let sr := shouldSell st market currentPrice profitRate lossRate
    if sr.1 then .ok none
    else
      match getPositionPnl st market currentPrice with
      | none => .ok none
      | some (pnl, pnlRate) =>
        collectLosingCandidate pos market currentPrice pnl pnlRate now

/-- `CoinButler._manage_positions` (trade_bot.py:2000-2062): iterate the open
positions collecting loss-cut rebalancing candidates; the per-market
`except Exception as e` (trade_bot.py:2060) logs any failure and moves on to
the next market. -/
def managePositionsCandidates (st : RMState) (prices : String → Option ℚ)
    (profitRate lossRate now : ℚ) : List LosingCandidate :=
  (st.positions.filter (fun kv => kv.2.status = "open")).foldl
    (fun acc kv =>
      match managePositionBody st kv.1 kv.2 prices profitRate lossRate now with
      | .ok (some c) => acc ++ [c]
      | .ok none => acc
      | .error _ => acc)
    []

/-- The guard at trade_bot.py:2064-2068 deciding whether
`_analyze_position_swap` runs: non-empty candidate list, AI analyzer present
and enabled (`aiEnabled`), a previous swap-check timestamp exists
(`hasLastSwapCheck`), and more than 5 minutes have elapsed since it. -/
def swapAnalysisRuns (candidates : List LosingCandidate)
    (aiEnabled hasLastSwapCheck : Bool) (minutesSinceLastCheck : ℚ) : Bool :=
  !candidates.isEmpty && aiEnabled && hasLastSwapCheck &&
    decide (minutesSinceLastCheck > 5)

/-! ## trade_bot.py — sell execution and 12-hour rebalancing -/

/-- Order info returned by `UpbitAPI.get_order_info`: state label, executed
volume, and optionally the average fill price (the exchange JSON can carry
it as a string, hence `PyVal`). -/
structure OrderInfo where
  state : String
  executedVolume : ℚ
  avgPrice : Option PyVal
deriving Repr, DecidableEq

/-- The exchange-side oracle for one `_execute_sell` run: the
`place_sell_order` result (`none` = order failed) and the results of the
first and second `get_order_info` polls. -/
structure SellEnv where
  orderResult : Option String
  orderInfo1 : Option OrderInfo
  orderInfo2 : Option OrderInfo
deriving Repr, DecidableEq

/-- `float(x)` on a `PyVal`: numbers pass through; a string raises
`ValueError` — exact for every string this program feeds it (the rebalancing
path passes the literal `"REBALANCING"` as `current_price`; a numeric string
would convert, but no call site passes one). -/
def pyFloat : PyVal → Except String ℚ
  | .num q => .ok q
  | .dt _ => .error "TypeError: float() argument"
  | .str s => .error ("ValueError: could not convert string to float: " ++ s)

/-- Everything `CoinButler._execute_sell` (trade_bot.py:2684-2768) produces:
`ret` is the Python return value — the body contains only bare `return`
statements and a fall-through end, so every path yields `None` (`Option.none`
here; the type records that a `True`/`False` result was presumably intended);
`st` is the ledger after the call; `sellFilled` is the `is_filled` test of
trade_bot.py:2731; `notifiedSell` whether `notify_sell` ran; `aiDb` the
recommendation table after `_update_ai_recommendation_exit`. -/
structure SellOutcome where
  ret : Option Bool
  st : RMState
  sellFilled : Bool
  notifiedSell : Bool
  aiDb : List AIRecRow
deriving Repr

/-- The order-info polling of trade_bot.py:2702-2718: the first
`get_order_info` result stands, unless it reported state `"wait"`, in which
case the second poll replaces it (`order_info = self.upbit_api.get_order_info(...)`
inside the `wait` branch). -/
def resolveOrderInfo (env : SellEnv) : Option OrderInfo :=
  match env.orderInfo1 with
  | some info => if info.state = "wait" then env.orderInfo2 else some info
  | none => none

/-- `CoinButler._execute_sell` (trade_bot.py:2684-2768). The polls: if the
first `get_order_info` reports state `"wait"`, a second poll replaces it
(trade_bot.py:2711-2718); `is_filled` then requires an order info with state
`"done"` or positive executed volume. On fill, `avg_price =
float(order_info.get('avg_price', current_price))` (a raised conversion
error is swallowed by the outer `except`), the position is closed through
the ledger, `notify_sell` fires and the AI exit update runs. Every branch
returns `None`. -/
def executeSell (st : RMState) (aiDb : List AIRecRow) (market : String)
    (currentPrice : PyVal) (env : SellEnv) (now : ℚ) (today : String)
    (nowTs : String) (daysBetween : String → String → Int) : SellOutcome :=
  match st.positions.lookup market with
  | none => ⟨none, st, false, false, aiDb⟩
  | some position =>
    if position.status ≠ "open" then ⟨none, st, false, false, aiDb⟩
    else
      match env.orderResult with
      | none => ⟨none, st, false, false, aiDb⟩
      | some _uuid =>
        match resolveOrderInfo env with
        | none => ⟨none, st, false, false, aiDb⟩
        | some info =>
          if info.state = "done" ∨ 0 < info.executedVolume then
            match (match info.avgPrice with
                   | some v => pyFloat v
                   | none => pyFloat currentPrice) with
            | .error _ => ⟨none, st, true, false, aiDb⟩
            | .ok avgPrice =>
              match closePosition st market avgPrice now today with
              | (some _profitLoss, st2) =>
                ⟨none, st2, true, true,
                  updateAiRecommendationExit aiDb market avgPrice nowTs
                    daysBetween⟩
              | (none, st2) => ⟨none, st2, true, false, aiDb⟩
          else ⟨none, st, false, false, aiDb⟩

/-- The buy half of a rebalancing decision (the `buy_analysis` dict): the
fields consulted at trade_bot.py:2247 and 2266. -/
structure BuyAnalysis where
  market : Option String
  recommendedCoin : Option String
  expectedProfit : ℚ
deriving Repr, DecidableEq

/-- A rebalancing decision as built by `_analyze_rebalancing_candidate`
(trade_bot.py:2165-2172). -/
structure RebalanceDecision where
  sellMarket : String
  sellPosition : Position
  sellReason : String
  buyAnalysis : Option BuyAnalysis
deriving Repr

/-- What `CoinButler._execute_rebalancing` produced: the ledger and AI table
after the run, whether the sell filled, whether the buy path was entered,
and whether `notify_rebalancing` fired. -/
structure RebalanceOutcome where
  st : RMState
  aiDb : List AIRecRow
  sellFilled : Bool
  buyAttempted : Bool
  notifiedRebalancing : Bool
deriving Repr

/-- `CoinButler._execute_rebalancing` (trade_bot.py:2230-2276):
`success = self._execute_sell(sell_market, "REBALANCING", sell_reason)`,
then `if success and buy_analysis:` enters the buy-and-notify path. Were
that branch ever reached, the source would call
`self._execute_buy(buy_market, buy_analysis, settings)` — a 3-argument call
to the 2-parameter method `_execute_buy(self, candidate, settings)`
(trade_bot.py:2499) — raising `TypeError` before any order, swallowed by the
outer `except`; the model marks the branch with `buyAttempted := true` and
no notification. -/
def executeRebalancing (st : RMState) (aiDb : List AIRecRow)
    (decision : RebalanceDecision) (env : SellEnv) (now : ℚ) (today : String)
    (nowTs : String) (daysBetween : String → String → Int) :
    RebalanceOutcome :=
  let sres := executeSell st aiDb decision.sellMarket
    (PyVal.str "REBALANCING") env now today nowTs daysBetween
  let success := sres.ret
  if optTruthy success && decision.buyAnalysis.isSome then
    { st := sres.st, aiDb := sres.aiDb, sellFilled := sres.sellFilled,
      buyAttempted := true, notifiedRebalancing := false }
  else
    { st := sres.st, aiDb := sres.aiDb, sellFilled := sres.sellFilled,
      buyAttempted := false, notifiedRebalancing := false }

/-- A ledger holding one open position: 30 units of KRW-X at 1,000. -/
def st1w : RMState :=
  { dailyLossLimit := -50000, maxPositions := 3,
    positions := [("KRW-X",
      { market := "KRW-X", entryPrice := 1000, quantity := 30,
        entryTime := 0, investmentAmount := 30000 })],
    tradeHistory := [], dailyPnl := [] }

/-- A fully successful sell: the order is placed and the first poll reports
it done with the full volume at average price 1,031. -/
def env1w : SellEnv :=
  { orderResult := some "uuid-1",
    orderInfo1 := some { state := "done", executedVolume := 30,
                         avgPrice := some (.num 1031) },
    orderInfo2 := none }

/-- A rebalancing decision for that position with a found new opportunity. -/
def dec1w : RebalanceDecision :=
  { sellMarket := "KRW-X",
    sellPosition := { market := "KRW-X", entryPrice := 1000, quantity := 30,
                      entryTime := 0, investmentAmount := 30000 },
    sellReason := "AI forward-loss rationale",
    buyAnalysis := some { market := some "KRW-NEW", recommendedCoin := none,
                          expectedProfit := 5 } }

/-! # Theorems -/

/-! ## Dictionary and list lemmas -/

theorem lookup_dictInsert_self {α : Type} (m : List (String × α)) (k : String)
    (v : α) : (dictInsert m k v).lookup k = some v := by
  induction m with
  | nil => simp [dictInsert, List.lookup]
  | cons kv rest ih =>
    by_cases h : kv.1 = k
    · simp [dictInsert, h, List.lookup]
    · have hbeq : (k == kv.1) = false := beq_eq_false_iff_ne.mpr (Ne.symm h)
      simp [dictInsert, h, List.lookup, hbeq, ih]

theorem lookup_dictInsert_ne {α : Type} (m : List (String × α)) (k k' : String)
    (v : α) (h : k' ≠ k) : (dictInsert m k v).lookup k' = m.lookup k' := by
  induction m with
  | nil =>
    have hbeq : (k' == k) = false := beq_eq_false_iff_ne.mpr h
    simp [dictInsert, List.lookup, hbeq]
  | cons kv rest ih =>
    by_cases hk : kv.1 = k
    · subst hk
      have hbeq : (k' == kv.1) = false := beq_eq_false_iff_ne.mpr h
      simp [dictInsert, List.lookup, hbeq]
    · cases hc : (k' == kv.1) <;> simp [dictInsert, hk, List.lookup, hc, ih]

theorem openCount_dictInsert_le (ps : List (String × Position)) (k : String)
    (pos : Position) :
    ((dictInsert ps k pos).filter (fun kv => kv.2.status = "open")).length ≤
      (ps.filter (fun kv => kv.2.status = "open")).length + 1 := by
  induction ps with
  | nil =>
    by_cases h : pos.status = "open" <;> simp [dictInsert, h]
  | cons kv rest ih =>
    by_cases h : kv.1 = k
    · by_cases h2 : pos.status = "open" <;>
        by_cases h3 : kv.2.status = "open" <;>
          (simp [dictInsert, h, h2, h3]; try omega)
    · by_cases h3 : kv.2.status = "open" <;> (simp [dictInsert, h, h3]; try omega)

/-- The P&L rate of an open position with invested amount `E * q` is
`(currentPrice - E) / E * 100`. -/
theorem pnlRate_eq (pos : Position) (E q cp : ℚ)
    (hq : pos.quantity = q) (hinv : pos.investmentAmount = E * q)
    (hEpos : 0 < E) (hqpos : 0 < q) :
    pos.calculatePnlRate cp = (cp - E) / E * 100 := by
  unfold Position.calculatePnlRate Position.calculateCurrentPnl
  rw [hq, hinv]
  have hEne : E ≠ 0 := ne_of_gt hEpos
  have hqne : q ≠ 0 := ne_of_gt hqpos
  field_simp
  ring

/-! ## C4 — take-profit / stop-loss trigger law -/

/-- **C4** (confirmed). For an open position with entry price `E`, quantity
`q > 0` and invested amount `E * q` (`E > 0`), and configured rates `p > 0`,
`l < 0`: `should_sell` returns true with a take-profit reason iff
`currentPrice ≥ E * (1 + p)`, returns true with a stop-loss reason iff
`currentPrice ≤ E * (1 + l)`, and returns `(false, "")` strictly between the
two bounds. -/
theorem C4_take_profit_stop_loss_law
    (st : RMState) (market : String) (pos : Position)
    (E q currentPrice p l : ℚ)
    (hpos : st.positions.lookup market = some pos)
    (hopen : pos.status = "open")
    (hq : pos.quantity = q)
    (hinv : pos.investmentAmount = E * q)
    (hEpos : 0 < E) (hqpos : 0 < q) (hp : 0 < p) (hl : l < 0) :
    (((shouldSell st market currentPrice p l).1 = true ∧
      (shouldSell st market currentPrice p l).2.isTakeProfit = true) ↔
        E * (1 + p) ≤ currentPrice) ∧
    (((shouldSell st market currentPrice p l).1 = true ∧
      (shouldSell st market currentPrice p l).2.isStopLoss = true) ↔
        currentPrice ≤ E * (1 + l)) ∧
    (E * (1 + l) < currentPrice → currentPrice < E * (1 + p) →
      shouldSell st market currentPrice p l = (false, .empty)) := by
  have hrate := pnlRate_eq pos E q currentPrice hq hinv hEpos hqpos
  have key1 : (p * 100 ≤ (currentPrice - E) / E * 100) ↔
      E * (1 + p) ≤ currentPrice := by
    rw [mul_le_mul_right (by norm_num : (0:ℚ) < 100), le_div_iff₀ hEpos]
    constructor <;> intro h <;> nlinarith
  have key2 : ((currentPrice - E) / E * 100 ≤ l * 100) ↔
      currentPrice ≤ E * (1 + l) := by
    rw [mul_le_mul_right (by norm_num : (0:ℚ) < 100), div_le_iff₀ hEpos]
    constructor <;> intro h <;> nlinarith
  have hss : shouldSell st market currentPrice p l =
      (if p * 100 ≤ (currentPrice - E) / E * 100 then
        (true, .takeProfit ((currentPrice - E) / E * 100))
      else if (currentPrice - E) / E * 100 ≤ l * 100 then
        (true, .stopLoss ((currentPrice - E) / E * 100))
      else (false, .empty)) := by
    simp only [shouldSell, getPositionPnl, hpos, hopen, hrate, ne_eq,
      not_true_eq_false, if_false, ge_iff_le]
  rw [hss]
  have hlp : E * (1 + l) < E * (1 + p) := by nlinarith
  split_ifs with h1 h2
  · refine ⟨?_, ?_, ?_⟩
    · simp only [SellReason.isTakeProfit, true_and, true_iff]
      exact key1.mp h1
    · simp only [SellReason.isStopLoss, Bool.false_eq_true, and_false,
        false_iff, not_le]
      exact lt_of_lt_of_le hlp (key1.mp h1)
    · intro _ hcp
      exact absurd (key1.mp h1) (not_le.mpr hcp)
  · refine ⟨?_, ?_, ?_⟩
    · simp only [SellReason.isTakeProfit, Bool.false_eq_true, and_false,
        false_iff, not_le]
      exact lt_of_not_le (fun h => h1 (key1.mpr h))
    · simp only [SellReason.isStopLoss, true_and, true_iff]
      exact key2.mp h2
    · intro hcp _
      exact absurd (key2.mp h2) (not_le.mpr hcp)
  · refine ⟨?_, ?_, ?_⟩
    · simp only [SellReason.isTakeProfit, Bool.false_eq_true, false_and,
        false_iff, not_le]
      exact lt_of_not_le (fun h => h1 (key1.mpr h))
    · simp only [SellReason.isStopLoss, Bool.false_eq_true, false_and,
        false_iff, not_le]
      exact lt_of_not_le (fun h => h2 (key2.mpr h))
    · intro _ _
      rfl

/-- Witness for C4 at the spec §8 example: `E = 100000`, `p = 0.03`,
`l = −0.02`, current price `103000` triggers take-profit. -/
theorem C4_take_profit_stop_loss_law_witness :
    (shouldSell st4w "KRW-BTC" 103000 (3/100) (-2/100)).1 = true ∧
    (shouldSell st4w "KRW-BTC" 103000 (3/100) (-2/100)).2.isTakeProfit =
      true :=
  ((C4_take_profit_stop_loss_law st4w "KRW-BTC" pos4w 100000 (3/10) 103000
      (3/100) (-2/100) (by rfl) (by rfl) (by rfl) (by norm_num [pos4w])
      (by norm_num) (by norm_num) (by norm_num) (by norm_num)).1).mpr
    (by norm_num)

/-! ## C5 — position-cap invariant -/

/-- **C5** (confirmed). `add_position` keeps the open-position count at or
below `max_positions`, and is rejected with the state unchanged whenever the
open count already equals the cap or the market already has an open
position. -/
theorem C5_add_position_cap (st : RMState) (market : String)
    (entryPrice quantity investmentAmount now : ℚ) (today : String)
    (hpre : openCount st ≤ st.maxPositions) :
    (openCount (addPosition st market entryPrice quantity investmentAmount
        now today).2 ≤ st.maxPositions) ∧
    (openCount st = st.maxPositions →
      addPosition st market entryPrice quantity investmentAmount now today =
        (false, st)) ∧
    ((st.positions.lookup market).any (fun p => p.status = "open") = true →
      addPosition st market entryPrice quantity investmentAmount now today =
        (false, st)) := by
  refine ⟨?_, ?_, ?_⟩
  · by_cases h1 : canOpenPosition st = true
    · by_cases h2 : (st.positions.lookup market).any
          (fun p => p.status = "open") = true
      · simp [addPosition, h1, h2]
        exact hpre
      · simp [addPosition, h1, h2]
        have hle := openCount_dictInsert_le st.positions market
          ⟨market, entryPrice, quantity, now, investmentAmount, none, none,
            "open", none⟩
        have hlt : openCount st < st.maxPositions := by
          simpa [canOpenPosition] using h1
        simp only [openCount, recordTrade] at *
        omega
    · simp [addPosition, h1]
      exact hpre
  · intro h
    have h1 : ¬ canOpenPosition st = true := by simp [canOpenPosition, h]
    simp [addPosition, h1]
  · intro h
    by_cases h1 : canOpenPosition st = true
    · simp [addPosition, h1, h]
    · simp [addPosition, h1]

/-- Witness for C5: a 4th `add_position` when 3 positions are open and the
cap is 3 returns `False` and leaves the state unchanged. -/
theorem C5_add_position_cap_witness :
    openCount st5w = st5w.maxPositions ∧
    addPosition st5w "KRW-XRP" 500 20 10000 0 "2026-10-12" = (false, st5w) :=
  ⟨by rfl,
    (C5_add_position_cap st5w "KRW-XRP" 500 20 10000 0 "2026-10-12"
      (by rfl)).2.1 (by rfl)⟩

/-! ## C6 — realized-P&L accounting identity -/

theorem sellPnlSum_append (d : String) (rows : List TradeRow) (r : TradeRow) :
    sellPnlSum d (rows ++ [r]) = sellPnlSum d rows +
      (if r.action == "SELL" && r.date == d then r.profitLoss else 0) := by
  by_cases h : (r.action == "SELL" && r.date == d) = true <;>
    simp [sellPnlSum, List.filter_append, List.filter, h]

theorem getDailyPnl_updateDailyPnl (st : RMState) (pl : ℚ) (d : String) :
    getDailyPnl (updateDailyPnl st pl d) d = getDailyPnl st d + pl := by
  simp [getDailyPnl, updateDailyPnl, lookup_dictInsert_self]

/-- One `add_position`/`close_position` call preserves the identity between
the daily-P&L map entry of date `d` and the SELL-row P&L sum of date `d`. -/
theorem C6_step (st : RMState) (now : ℚ) (d : String) (op : RMOp)
    (hinv : getDailyPnl st d = sellPnlSum d st.tradeHistory) :
    getDailyPnl (applyOp now d st op) d =
      sellPnlSum d (applyOp now d st op).tradeHistory := by
  cases op with
  | add m e q i =>
    simp only [applyOp]
    by_cases h1 : canOpenPosition st = true
    · by_cases h2 : (st.positions.lookup m).any
          (fun p => p.status = "open") = true
      · simpa [addPosition, h1, h2] using hinv
      · simp [addPosition, h1, h2, recordTrade, getDailyPnl, sellPnlSum_append]
        simpa [getDailyPnl] using hinv
    · simpa [addPosition, h1] using hinv
  | close m x =>
    simp only [applyOp]
    cases hlook : st.positions.lookup m with
    | none => simpa [closePosition, hlook] using hinv
    | some p =>
      by_cases hst : p.status = "open"
      · simp [closePosition, hlook, hst, Position.closePos, recordTrade,
          sellPnlSum_append, getDailyPnl, updateDailyPnl,
          lookup_dictInsert_self]
        simpa [getDailyPnl] using hinv
      · simpa [closePosition, hlook, hst] using hinv

/-- **C6** (confirmed). For any `add_position`/`close_position` sequence run
on one calendar date, starting from a state where the date's daily-P&L entry
equals that date's SELL-row P&L sum (e.g. both empty), the daily-P&L map
value for the date stays equal to the sum of `profit_loss` over that date's
SELL rows in trade history. -/
theorem C6_daily_pnl_accounting (ops : List RMOp) (st : RMState) (now : ℚ)
    (d : String)
    (hinv : getDailyPnl st d = sellPnlSum d st.tradeHistory) :
    getDailyPnl (ops.foldl (applyOp now d) st) d =
      sellPnlSum d (ops.foldl (applyOp now d) st).tradeHistory := by
  induction ops generalizing st with
  | nil => simpa using hinv
  | cons op rest ih => exact ih _ (C6_step st now d op hinv)

/-- Witness for C6 at the spec §8.12 scenario (buy 30 @ 1000 for 30000, close
@ 1031, realized P&L 930), starting from the empty ledger `st6w`. -/
theorem C6_daily_pnl_accounting_witness :
    getDailyPnl (ops6w.foldl (applyOp 0 "2026-10-12") st6w) "2026-10-12" =
      sellPnlSum "2026-10-12"
        (ops6w.foldl (applyOp 0 "2026-10-12") st6w).tradeHistory :=
  C6_daily_pnl_accounting ops6w st6w 0 "2026-10-12" (by rfl)

/-! ## C7 — daily-loss breach check -/

theorem foldl_keep_acc (l : List (String × Position)) (a : ℚ) :
    l.foldl (fun acc _kv => acc) a = a := by
  induction l with
  | nil => rfl
  | cons kv rest ih => simp only [List.foldl_cons]; exact ih

theorem getDailyPnl_foldl_updates (st : RMState) (d : String) (l : List ℚ) :
    getDailyPnl (l.foldl (fun s pl => updateDailyPnl s pl d) st) d =
      getDailyPnl st d + l.sum := by
  induction l generalizing st with
  | nil => simp
  | cons pl rest ih =>
    simp only [List.foldl_cons, ih, getDailyPnl_updateDailyPnl, List.sum_cons]
    ring

/-- **C7** (confirmed). `check_daily_loss_limit(limit)` is true exactly when
the day's realized P&L from the daily-P&L map is `≤ limit`; it does not
depend on the open positions (the unrealized-P&L loop body is `pass`); and
the result is invariant under reordering of the contributing closed trades
(modelled as a permutation of the `_update_daily_pnl` contributions). -/
theorem C7_daily_loss_limit (st : RMState) (limit : ℚ) (d : String)
    (pnls pnls' : List ℚ) (hperm : pnls.Perm pnls') :
    (checkDailyLossLimit st limit d = true ↔ getDailyPnl st d ≤ limit) ∧
    (∀ ps, checkDailyLossLimit { st with positions := ps } limit d =
      checkDailyLossLimit st limit d) ∧
    (checkDailyLossLimit (pnls.foldl (fun s pl => updateDailyPnl s pl d) st)
        limit d =
      checkDailyLossLimit (pnls'.foldl (fun s pl => updateDailyPnl s pl d) st)
        limit d) := by
  have hcheck : ∀ s : RMState,
      checkDailyLossLimit s limit d = decide (getDailyPnl s d ≤ limit) := by
    intro s
    simp [checkDailyLossLimit, foldl_keep_acc]
  refine ⟨?_, ?_, ?_⟩
  · rw [hcheck]
    simp
  · intro ps
    rw [hcheck, hcheck]
    simp [getDailyPnl]
  · rw [hcheck, hcheck, getDailyPnl_foldl_updates, getDailyPnl_foldl_updates,
      hperm.sum_eq]

/-- Witness for C7 at the spec §8.6 example: closes netting −20,000, −25,000,
−10,000 in either order give the same breach verdict against a −50,000
limit. -/
theorem C7_daily_loss_limit_witness :
    checkDailyLossLimit
        (([-20000, -25000, -10000] : List ℚ).foldl
          (fun s pl => updateDailyPnl s pl "2026-10-12") st6w)
        (-50000) "2026-10-12" =
      checkDailyLossLimit
        (([-25000, -20000, -10000] : List ℚ).foldl
          (fun s pl => updateDailyPnl s pl "2026-10-12") st6w)
        (-50000) "2026-10-12" :=
  (C7_daily_loss_limit st6w (-50000) "2026-10-12" _ _
    (List.Perm.swap _ _ _)).2.2

/-! ## C8 — update_multiple rollback -/

theorem lookup_applyUpdates_not_mem (c0 : List (String × PyVal))
    (updates : List (String × PyVal)) (k : String)
    (h : k ∉ updates.map Prod.fst) :
    (updates.foldl (fun c kv => dictInsert c kv.1 kv.2) c0).lookup k =
      c0.lookup k := by
  induction updates generalizing c0 with
  | nil => rfl
  | cons kv rest ih =>
    simp only [List.map_cons, List.mem_cons, not_or] at h
    simp only [List.foldl_cons]
    rw [ih _ h.2, lookup_dictInsert_ne _ _ _ _ h.1]

theorem lookup_applyUpdates_mem (c0 : List (String × PyVal))
    (updates : List (String × PyVal)) (k : String) (v : PyVal)
    (hmem : (k, v) ∈ updates) (hnodup : (updates.map Prod.fst).Nodup) :
    (updates.foldl (fun c kv => dictInsert c kv.1 kv.2) c0).lookup k =
      some v := by
  induction updates generalizing c0 with
  | nil => simp at hmem
  | cons kv rest ih =>
    simp only [List.map_cons, List.nodup_cons] at hnodup
    rcases List.mem_cons.mp hmem with heq | hmem'
    · subst heq
      simp only [List.foldl_cons]
      rw [lookup_applyUpdates_not_mem _ _ _ hnodup.1, lookup_dictInsert_self]
    · simp only [List.foldl_cons]
      exact ih _ hmem' hnodup.2

theorem lookup_rollback_not_mem (c0 : List (String × PyVal))
    (olds : List (String × Option PyVal)) (k : String)
    (h : k ∉ olds.map Prod.fst) :
    (olds.foldl rollbackStep c0).lookup k = c0.lookup k := by
  induction olds generalizing c0 with
  | nil => rfl
  | cons kv rest ih =>
    simp only [List.map_cons, List.mem_cons, not_or] at h
    simp only [List.foldl_cons]
    rw [ih _ h.2]
    cases hv : kv.2 with
    | none => simp [rollbackStep, hv]
    | some w => simp [rollbackStep, hv, lookup_dictInsert_ne _ _ _ _ h.1]

theorem lookup_rollback_mem_some (c0 : List (String × PyVal))
    (olds : List (String × Option PyVal)) (k : String) (w : PyVal)
    (hmem : (k, some w) ∈ olds) (hnodup : (olds.map Prod.fst).Nodup) :
    (olds.foldl rollbackStep c0).lookup k = some w := by
  induction olds generalizing c0 with
  | nil => simp at hmem
  | cons kv rest ih =>
    simp only [List.map_cons, List.nodup_cons] at hnodup
    rcases List.mem_cons.mp hmem with heq | hmem2
    · rw [← heq] at hnodup
      simp only [List.foldl_cons]
      rw [← heq]
      rw [lookup_rollback_not_mem _ _ _ hnodup.1]
      simp [rollbackStep, lookup_dictInsert_self]
    · simp only [List.foldl_cons]
      exact ih _ hmem2 hnodup.2

theorem lookup_rollback_mem_none (c0 : List (String × PyVal))
    (olds : List (String × Option PyVal)) (k : String)
    (hmem : (k, none) ∈ olds) (hnodup : (olds.map Prod.fst).Nodup) :
    (olds.foldl rollbackStep c0).lookup k = c0.lookup k := by
  induction olds generalizing c0 with
  | nil => simp at hmem
  | cons kv rest ih =>
    simp only [List.map_cons, List.nodup_cons] at hnodup
    rcases List.mem_cons.mp hmem with heq | hmem2
    · rw [← heq] at hnodup
      simp only [List.foldl_cons]
      rw [← heq]
      rw [lookup_rollback_not_mem _ _ _ hnodup.1]
      simp [rollbackStep]
    · have hk1 : kv.1 ≠ k := by
        intro h
        exact hnodup.1 (h ▸ List.mem_map.mpr ⟨(k, none), hmem2, rfl⟩)
      have hstep : (rollbackStep c0 kv).lookup k = c0.lookup k := by
        cases hv : kv.2 with
        | none => simp [rollbackStep, hv]
        | some w2 =>
          simp [rollbackStep, hv, lookup_dictInsert_ne _ _ _ _ hk1.symm]
      simp only [List.foldl_cons]
      rw [ih _ hmem2 hnodup.2, hstep]

theorem C8_counterexample_absent_key_kept :
    (updateMultiple [] [("volume_spike_threshold", PyVal.num 3)]
      (PyVal.str "2026-10-12T00:00:00") false).1 = false ∧
    (updateMultiple [] [("volume_spike_threshold", PyVal.num 3)]
        (PyVal.str "2026-10-12T00:00:00") false).2.lookup
        "volume_spike_threshold" = some (PyVal.num 3) ∧
    ([] : List (String × PyVal)).lookup "volume_spike_threshold" = none := by
  refine ⟨rfl, ?_, rfl⟩
  rfl

theorem C8_update_multiple_failed_persist
    (config updates : List (String × PyVal)) (now : PyVal)
    (hnodup : (updates.map Prod.fst).Nodup)
    (hlu : "last_updated" ∉ updates.map Prod.fst) :
    (updateMultiple config updates now false).1 = false ∧
    ∀ kv ∈ updates,
      ((config.lookup kv.1).isSome →
        (updateMultiple config updates now false).2.lookup kv.1 =
          config.lookup kv.1) ∧
      (config.lookup kv.1 = none →
        (updateMultiple config updates now false).2.lookup kv.1 =
          some kv.2) := by
  constructor
  · simp [updateMultiple, saveConfig]
  · intro kv hmem
    have hkey : kv.1 ∉ ([] : List String) := by simp
    have holdmem : (kv.1, config.lookup kv.1) ∈
        updates.map (fun kv => (kv.1, config.lookup kv.1)) :=
      List.mem_map.mpr ⟨kv, hmem, rfl⟩
    have holdnodup :
        ((updates.map (fun kv => (kv.1, config.lookup kv.1))).map
          Prod.fst).Nodup := by
      simpa [List.map_map, Function.comp] using hnodup
    have hne : kv.1 ≠ "last_updated" := by
      intro h
      exact hlu (h ▸ List.mem_map.mpr ⟨kv, hmem, rfl⟩)
    have hres : (updateMultiple config updates now false).2 =
        (updates.map (fun kv => (kv.1, config.lookup kv.1))).foldl
          rollbackStep
          (dictInsert
            (updates.foldl (fun c kv => dictInsert c kv.1 kv.2) config)
            "last_updated" now) := by
      simp [updateMultiple, saveConfig]
    rw [hres]
    constructor
    · intro hsome
      cases hc : config.lookup kv.1 with
      | none => rw [hc] at hsome; simp at hsome
      | some w =>
        have := lookup_rollback_mem_some
          (dictInsert
            (updates.foldl (fun c kv => dictInsert c kv.1 kv.2) config)
            "last_updated" now)
          (updates.map (fun kv => (kv.1, config.lookup kv.1)))
          kv.1 w (by rw [← hc]; exact holdmem) holdnodup
        rw [this]
    · intro hnone
      have := lookup_rollback_mem_none
        (dictInsert
          (updates.foldl (fun c kv => dictInsert c kv.1 kv.2) config)
          "last_updated" now)
        (updates.map (fun kv => (kv.1, config.lookup kv.1)))
        kv.1 (by rw [← hnone]; exact holdmem) holdnodup
      rw [this, lookup_dictInsert_ne _ _ _ _ hne]
      exact lookup_applyUpdates_mem config updates kv.1 kv.2 hmem hnodup

theorem C8_update_multiple_failed_persist_witness :
    (updateMultiple [("profit_rate", PyVal.num (3/100))]
      [("profit_rate", PyVal.num (5/100))] (PyVal.str "t") false).1 = false ∧
    (updateMultiple [("profit_rate", PyVal.num (3/100))]
        [("profit_rate", PyVal.num (5/100))] (PyVal.str "t") false).2.lookup
        "profit_rate" = some (PyVal.num (3/100)) := by
  have h := C8_update_multiple_failed_persist
    [("profit_rate", PyVal.num (3/100))]
    [("profit_rate", PyVal.num (5/100))] (PyVal.str "t")
    (by simp) (by simp)
  refine ⟨h.1, ?_⟩
  have h2 := (h.2 ("profit_rate", PyVal.num (5/100)) (by simp)).1 (by rfl)
  rw [h2]
  rfl

/-! ## C3 — sell-side recommendation update never fills the exit half -/

/-- Every iteration of the `_update_ai_recommendation_exit` loop leaves the
table unchanged, because the inner call passes `execution_price = None`. -/
theorem updateAiExitGo_eq (db : List AIRecRow) (market : String)
    (exitPrice : ℚ) (nowTs : String) (daysBetween : String → String → Int)
    (l : List AIRecRow) :
    updateAiExitGo db market exitPrice nowTs daysBetween l = db := by
  induction l with
  | nil => rfl
  | cons rec rest ih =>
    simp only [updateAiExitGo]
    split
    · cases h : selectExitRowId db market with
      | none => exact ih
      | some recId => rfl
    · exact ih

/-- **C3** (confirmed). `update_recommendation_result` called with
`execution_price = None` and a present `exit_price` returns `False` and
leaves the table unchanged; and `_update_ai_recommendation_exit` — which
always passes `None` as the execution price — therefore never changes the
table: the exit half of a recommendation is never filled in. -/
theorem C3_exit_update_never_fills (db : List AIRecRow) (recId : Nat)
    (xp : ℚ) (ts : Option String) (nowTs : String) (market : String)
    (exitPrice : ℚ) (daysBetween : String → String → Int) :
    updateRecommendationResult db recId none (some xp) ts daysBetween nowTs =
      (false, db) ∧
    updateAiRecommendationExit db market exitPrice nowTs daysBetween = db :=
  ⟨rfl, updateAiExitGo_eq db market exitPrice nowTs daysBetween _⟩

/-! ## C10 — retry with backoff -/

def goodSleep {α : Type} (delayBase : ℚ) (outcomes : Nat → AttemptOutcome α)
    (s : RetrySleep) : Prop :=
  s.delay = delayBase * 2 ^ s.attempt ∧
    (s.jitter = true ↔ outcomes s.attempt = .http429)

theorem apiRetryGo_attempts_le {α : Type} (delayBase : ℚ) (maxRetries : Nat)
    (outcomes : Nat → AttemptOutcome α) :
    ∀ fuel attempt sleeps,
      (apiRetryGo delayBase maxRetries outcomes fuel attempt
        sleeps).attemptsMade ≤ attempt + fuel := by
  intro fuel
  induction fuel with
  | zero => intro attempt sleeps; simp [apiRetryGo]
  | succ fuel ih =>
    intro attempt sleeps
    cases h : outcomes attempt with
    | ok a => simp [apiRetryGo, h]; try omega
    | http429 =>
      simp only [apiRetryGo, h]
      split_ifs
      · exact le_trans (ih _ _) (by omega)
      · simp; try omega
    | httpOther code => simp [apiRetryGo, h]; try omega
    | exc =>
      simp only [apiRetryGo, h]
      split_ifs
      · exact le_trans (ih _ _) (by omega)
      · simp; try omega

theorem apiRetryGo_sleeps {α : Type} (delayBase : ℚ) (maxRetries : Nat)
    (outcomes : Nat → AttemptOutcome α) :
    ∀ fuel attempt sleeps,
      (∀ s ∈ sleeps, goodSleep delayBase outcomes s) →
      ∀ s ∈ (apiRetryGo delayBase maxRetries outcomes fuel attempt
        sleeps).sleeps, goodSleep delayBase outcomes s := by
  intro fuel
  induction fuel with
  | zero => intro attempt sleeps hpre; simpa [apiRetryGo] using hpre
  | succ fuel ih =>
    intro attempt sleeps hpre
    cases h : outcomes attempt with
    | ok a => simpa [apiRetryGo, h] using hpre
    | http429 =>
      simp only [apiRetryGo, h]
      split_ifs
      · refine ih _ _ ?_
        intro s hs
        rcases List.mem_append.mp hs with hs | hs
        · exact hpre s hs
        · simp only [List.mem_singleton] at hs
          subst hs
          exact ⟨rfl, by simp [h]⟩
      · simpa using hpre
    | httpOther code => simpa [apiRetryGo, h] using hpre
    | exc =>
      simp only [apiRetryGo, h]
      split_ifs
      · refine ih _ _ ?_
        intro s hs
        rcases List.mem_append.mp hs with hs | hs
        · exact hpre s hs
        · simp only [List.mem_singleton] at hs
          subst hs
          refine ⟨rfl, ?_⟩
          simp [h]
      · simpa using hpre

theorem apiRetryGo_raises {α : Type} (delayBase : ℚ) (maxRetries : Nat)
    (outcomes : Nat → AttemptOutcome α)
    (hfail : ∀ i, i < maxRetries → ∀ a, outcomes i ≠ .ok a) :
    ∀ fuel attempt sleeps, fuel + attempt = maxRetries →
      attempt < maxRetries →
      ∃ e, (apiRetryGo delayBase maxRetries outcomes fuel attempt
        sleeps).result = .raised e := by
  intro fuel
  induction fuel with
  | zero => intro attempt sleeps hsum hlt; omega
  | succ fuel ih =>
    intro attempt sleeps hsum hlt
    cases h : outcomes attempt with
    | ok a => exact absurd h (hfail attempt hlt a)
    | http429 =>
      simp only [apiRetryGo, h]
      split_ifs with hretry
      · exact ih _ _ (by omega) (by omega)
      · exact ⟨.http429, rfl⟩
    | httpOther code =>
      simp only [apiRetryGo, h]
      exact ⟨.httpOther code, rfl⟩
    | exc =>
      simp only [apiRetryGo, h]
      split_ifs with hretry
      · exact ih _ _ (by omega) (by omega)
      · exact ⟨.exc, rfl⟩

theorem C10_retry_backoff {α : Type} (outcomes : Nat → AttemptOutcome α) :
    (exchangeCallRetry outcomes).attemptsMade ≤ 3 ∧
    (∀ s ∈ (exchangeCallRetry outcomes).sleeps,
      s.delay = 2 * 2 ^ s.attempt ∧
        (s.jitter = true ↔ outcomes s.attempt = .http429)) ∧
    ((∀ i, i < 3 → ∀ a, outcomes i ≠ .ok a) →
      ∃ e, (exchangeCallRetry outcomes).result = .raised e) := by
  refine ⟨?_, ?_, ?_⟩
  · simpa using apiRetryGo_attempts_le 2 3 outcomes 3 0 []
  · exact apiRetryGo_sleeps 2 3 outcomes 3 0 [] (by simp)
  · intro hfail
    exact apiRetryGo_raises 2 3 outcomes hfail 3 0 [] rfl (by omega)

theorem C10_counterexample_first_wait_is_2s :
    (exchangeCallRetry outcomes10c).sleeps =
      [{ attempt := 0, delay := 2, jitter := false }] ∧
    ¬ ((2:ℚ) = 1 * 2 ^ (0:Nat)) := by
  constructor
  · norm_num [exchangeCallRetry, apiRetry, apiRetryGo, outcomes10c]
  · norm_num

theorem C10_retry_backoff_witness :
    ∃ e, (exchangeCallRetry (fun _ => (.exc : AttemptOutcome Unit))).result =
      .raised e :=
  (C10_retry_backoff (fun _ => (.exc : AttemptOutcome Unit))).2.2
    (by intro i _ a h; exact AttemptOutcome.noConfusion h)

/-! ## C9 — ranking fallback -/

/-- **C9** (code bug). Because `_get_fallback_top_markets` calls the
nonexistent `self.get_current_price`, every iteration raises
`AttributeError`, is swallowed by `continue`, and the fallback returns the
empty list — so on an API outage `get_daily_trade_volume_ranking` yields no
candidates at all instead of the claimed ten large-cap markets with their
current prices. -/
theorem C9_fallback_returns_empty (limit : Nat) :
    getDailyTradeVolumeRanking none limit = [] ∧
    getFallbackTopMarkets limit = [] := by
  have hfold : ∀ l : List String,
      l.foldl
        (fun result market =>
          match analyzerSelfGetCurrentPrice market with
          | .error _ => result
          | .ok currentPrice =>
            if currentPrice ≠ 0 then
              result ++ [{ market := market, tradeVolume := 0, tradePrice := 0,
                           currentPrice := currentPrice, changeRate := 0,
                           volumePower := 0 }]
            else result)
        ([] : List TickerInfo) = [] := by
    intro l
    induction l with
    | nil => rfl
    | cons m rest ih => simp only [List.foldl_cons]; exact ih
  exact ⟨hfold _, hfold _⟩

/-! ## C2 — loss-cut candidate collection -/

theorem collectLosingCandidate_eq (pos : Position) (market : String)
    (currentPrice pnl pnlRate now : ℚ) :
    collectLosingCandidate pos market currentPrice pnl pnlRate now =
      if pnlRate < -5 then
        .error "AttributeError: Position object has no attribute get"
      else .ok none := by
  unfold collectLosingCandidate positionDictGet
  split <;> rfl

/-- **C2** (code bug). The loss-cut candidate list built by
`_manage_positions` is always empty — `position.get('entry_time', …)` raises
`AttributeError` on every `Position` object, so even a position losing more
than 5% held over a day is never collected — and consequently the
position-swap analysis never runs, whatever the AI/timer gates say. -/
theorem C2_loss_candidates_never_collected (st : RMState)
    (prices : String → Option ℚ) (profitRate lossRate now : ℚ)
    (aiEnabled hasLastSwapCheck : Bool) (minutesSinceLastCheck : ℚ) :
    managePositionsCandidates st prices profitRate lossRate now = [] ∧
    swapAnalysisRuns
      (managePositionsCandidates st prices profitRate lossRate now)
      aiEnabled hasLastSwapCheck minutesSinceLastCheck = false := by
  have hbody : ∀ market pos, ∀ c : LosingCandidate,
      managePositionBody st market pos prices profitRate lossRate now ≠
        .ok (some c) := by
    intro market pos c
    unfold managePositionBody
    cases prices market with
    | none => simp
    | some cp =>
      simp only
      split
      · simp
      · cases getPositionPnl st market cp with
        | none => simp
        | some pr =>
          simp only [collectLosingCandidate_eq]
          split <;> simp
  have hfold : ∀ l : List (String × Position),
      l.foldl
        (fun acc kv =>
          match managePositionBody st kv.1 kv.2 prices profitRate lossRate
              now with
          | .ok (some c) => acc ++ [c]
          | .ok none => acc
          | .error _ => acc)
        [] = [] := by
    intro l
    induction l with
    | nil => rfl
    | cons kv rest ih =>
      have : (match managePositionBody st kv.1 kv.2 prices profitRate
            lossRate now with
          | .ok (some c) => ([] : List LosingCandidate) ++ [c]
          | .ok none => []
          | .error _ => []) = [] := by
        cases hb : managePositionBody st kv.1 kv.2 prices profitRate
            lossRate now with
        | error e => rfl
        | ok c =>
          cases c with
          | none => rfl
          | some c0 => exact absurd hb (hbody kv.1 kv.2 c0)
      simp only [List.foldl_cons, this, ih]
  constructor
  · exact hfold _
  · have h := hfold ((st.positions.filter (fun kv => kv.2.status = "open")))
    simp [managePositionsCandidates, swapAnalysisRuns, h]

/-! ## C1 — 12-hour rebalancing sell-then-buy -/

theorem executeSell_ret_none (st : RMState) (aiDb : List AIRecRow)
    (market : String) (currentPrice : PyVal) (env : SellEnv) (now : ℚ)
    (today : String) (nowTs : String)
    (daysBetween : String → String → Int) :
    (executeSell st aiDb market currentPrice env now today nowTs
      daysBetween).ret = none := by
  unfold executeSell
  repeat' split
  all_goals rfl

theorem C1_rebalancing_buy_never_executes :
    (∀ (st : RMState) (aiDb : List AIRecRow) (decision : RebalanceDecision)
      (env : SellEnv) (now : ℚ) (today nowTs : String)
      (daysBetween : String → String → Int),
      (executeRebalancing st aiDb decision env now today nowTs
        daysBetween).buyAttempted = false ∧
      (executeRebalancing st aiDb decision env now today nowTs
        daysBetween).notifiedRebalancing = false) ∧
    (executeRebalancing st1w [] dec1w env1w 0 "2026-10-12" "t0"
      (fun _ _ => 0)).sellFilled = true := by
  constructor
  · intro st aiDb decision env now today nowTs daysBetween
    have h := executeSell_ret_none st aiDb decision.sellMarket
      (PyVal.str "REBALANCING") env now today nowTs daysBetween
    constructor <;> simp [executeRebalancing, h, optTruthy]
  · rfl

end CoinButler
